import Mathlib

/-!
Shallow embedding of `src/regulations_aggregator.py` (the
ingestion-normalization-upsert core of the regulations aggregator):
the record store (`store_records`) and the two source normalizers
(`normalize_federal`, `normalize_state`), together with proofs of the
spec's claims about them.

Modelling choices:
* A Python dict of string keys and string values (a normalized record
  handed to the store) is a `Dict := List (String × String)`;
  `rec.get(k)` is `Dict.get`, `rec.get(k, '')` is `(Dict.get rec k).getD ""`.
* The SQLite `regulations` table is a `List Row`; `INSERT OR REPLACE`
  on the primary key `id` is `insertOrReplace`; the `SELECT ... WHERE id = ?`
  lookup is `List.find?`.
* `datetime.now().isoformat()` — captured once at line 58, before the
  loop — is an explicit parameter `now` of `store_records`.
* Raw upstream items are structures of `Option String` fields
  (`none` = key absent from the raw mapping); Python's falsy-or
  (`a or b`) over such strings is `pyOr`.
* `json.dumps` over the modelled keys is a concrete serialization
  function (its exact output never matters to the claims; only that it
  is always a string).
-/

/-- A Python dict with string keys and string values. -/
abbrev Dict : Type := List (String × String)

/-- `d.get(k)` — `some` of the first value bound to `k`, else `none`. -/
def Dict.get (d : Dict) (k : String) : Option String :=
  (List.find? (fun p => p.1 = k) d).map (fun p => p.2)

/-- The keys of a dict, in order. -/
def Dict.keys (d : Dict) : List String :=
  List.map (fun p : String × String => p.1) d

/-- One row of the `regulations` table (columns in schema order). -/
structure Row where
  id : String
  level : String
  title : String
  description : String
  published_date : String
  full_text : String
  source_url : String
  source_last_modified : String
  last_updated : String
deriving DecidableEq, Repr

/-- The `regulations` table. -/
abbrev DB : Type := List Row

/-- `SELECT source_last_modified FROM regulations WHERE id = ?` —
the row for `doc_id`, if one exists. -/
def DB.lookup (db : DB) (doc_id : String) : Option Row :=
  List.find? (fun r => r.id = doc_id) db

/-- `INSERT OR REPLACE` on primary key `id`: replace the row with the
same `id` if present, otherwise append. -/
def insertOrReplace (db : DB) (row : Row) : DB :=
  if List.any db (fun r => r.id = row.id) then
    List.map (fun r => if r.id = row.id then row else r) db
  else db ++ [row]

/-- The row built by the `INSERT OR REPLACE` at lines 77-92: every
canonical field from the incoming record (`rec.get(k, '')`),
`source_url` and `level` from the call, `last_updated := now`. -/
def rowOfRec (level source_url now doc_id : String) (rec : Dict) : Row :=
  { id := doc_id
    level := level
    title := (Dict.get rec "title").getD ""
    description := (Dict.get rec "description").getD ""
    published_date := (Dict.get rec "published_date").getD ""
    full_text := (Dict.get rec "full_text").getD ""
    source_url := source_url
    source_last_modified := (Dict.get rec "source_last_modified").getD ""
    last_updated := now }

/-- The body of the `for rec in records` loop of `store_records`
(lines 60-93): skip on falsy id; skip when a stored row exists with a
non-empty marker, the incoming marker is non-empty, and
stored >= incoming (Python string `>=`); otherwise insert-or-replace. -/
def storeOne (level source_url now : String) (db : DB) (rec : Dict) : DB :=
  match Dict.get rec "id" with
  | none => db
  | some doc_id =>
    if doc_id = "" then db
    else
      let source_mod := (Dict.get rec "source_last_modified").getD ""
      match DB.lookup db doc_id with
      | some existing =>
        if existing.source_last_modified ≠ "" ∧ source_mod ≠ "" ∧
            existing.source_last_modified ≥ source_mod then db
        else insertOrReplace db (rowOfRec level source_url now doc_id rec)
      | none => insertOrReplace db (rowOfRec level source_url now doc_id rec)

/-- `store_records(level, records, source_url)` (lines 50-96), with the
table state and the single `now` timestamp passed explicitly. -/
def store_records (level : String) (records : List Dict) (source_url : String)
    (now : String) (db : DB) : DB :=
  List.foldl (storeOne level source_url now) db records

/-- Python `a or b` for strings: `b` when `a` is falsy (empty). -/
def pyOr (a b : String) : String := if a = "" then b else a

/-- `SELECT count(*) FROM regulations WHERE id = ?` — the number of
stored rows with the given id. -/
def DB.countId (db : DB) (doc_id : String) : Nat :=
  List.countP (fun r => r.id = doc_id) db

/-- Well-formedness that SQLite's PRIMARY KEY enforces: ids are distinct. -/
def DB.WF (db : DB) : Prop :=
  List.Nodup (List.map Row.id db)

example : store_records "federal" [[("id", "a"), ("source_last_modified", "2")]] "u" "t" [] =
    [{ id := "a", level := "federal", title := "", description := "",
       published_date := "", full_text := "", source_url := "u",
       source_last_modified := "2", last_updated := "t" }] := by decide

/-! ## Normalizers -/

/-- The six keys of a canonical record produced by a normalizer, in the
order of the dict literals at lines 106-114 and 157-164. -/
def canonicalKeys : List String :=
  ["id", "title", "description", "published_date", "full_text",
   "source_last_modified"]

/-- The `attributes` mapping of a Regulations.gov JSON:API item; `none`
means the key is absent from the raw mapping. -/
structure FedAttrs where
  documentId : Option String
  title : Option String
  summary : Option String
  abstract : Option String
  postedDate : Option String
  lastModifiedDate : Option String
deriving DecidableEq, Repr

/-- A raw Regulations.gov JSON:API item as `normalize_federal` reads it:
a top-level `id` and an `attributes` mapping, either possibly absent. -/
structure FedItem where
  id : Option String
  attributes : Option FedAttrs
deriving DecidableEq, Repr

/-- The empty mapping, the default of `item.get('attributes', \x7b\x7d)`. -/
def FedAttrs.empty : FedAttrs :=
  { documentId := none, title := none, summary := none, abstract := none,
    postedDate := none, lastModifiedDate := none }

/-- One serialized `"key": "value"` member of a JSON object, or nothing
when the key is absent. -/
def dumpsField (key : String) (v : Option String) : List String :=
  match v with
  | none => []
  | some s => ["\"" ++ key ++ "\": \"" ++ s ++ "\""]

/-- Wrap serialized members into a JSON object string. -/
def dumpsObj (fields : List String) : String :=
  "\x7b" ++ String.intercalate ", " fields ++ "\x7d"

/-- `json.dumps(attrs)` over the modelled attribute keys. -/
def dumpsFedAttrs (attrs : FedAttrs) : String :=
  dumpsObj (dumpsField "documentId" attrs.documentId ++
    dumpsField "title" attrs.title ++
    dumpsField "summary" attrs.summary ++
    dumpsField "abstract" attrs.abstract ++
    dumpsField "postedDate" attrs.postedDate ++
    dumpsField "lastModifiedDate" attrs.lastModifiedDate)

/-- `normalize_federal(data)` (lines 101-115): one canonical dict per
item, with Python's falsy `or` fallbacks (`pyOr`) for `id`,
`description` and `source_last_modified`. -/
def normalize_federal (data : List FedItem) : List Dict :=
  List.map (fun item =>
    let attrs := item.attributes.getD FedAttrs.empty
    [("id", pyOr (attrs.documentId.getD "") (item.id.getD "")),
     ("title", attrs.title.getD ""),
     ("description", pyOr (attrs.summary.getD "") (attrs.abstract.getD "")),
     ("published_date", attrs.postedDate.getD ""),
     ("full_text", dumpsFedAttrs attrs),
     ("source_last_modified",
      pyOr (attrs.lastModifiedDate.getD "") (attrs.postedDate.getD ""))]) data

/-- The `status` member of a NYS bill: the raw JSON value may be a
mapping (with optional `statusDesc` / `actionDate` keys) or anything
else, which the `isinstance(status, dict)` guards at lines 154-155
treat as empty. -/
inductive StatusVal where
  | dict (statusDesc : Option String) (actionDate : Option String)
  | nonDict (raw : String)
deriving DecidableEq, Repr

/-- The `result` mapping of a NYS Open Legislation search item. -/
structure Bill where
  basePrintNo : Option String
  session : Option String
  title : Option String
  summary : Option String
  status : Option StatusVal
deriving DecidableEq, Repr

/-- The empty mapping, the default of `item.get('result', \x7b\x7d)`. -/
def Bill.empty : Bill :=
  { basePrintNo := none, session := none, title := none, summary := none,
    status := none }

/-- A raw NYS Open Legislation search item as `normalize_state` reads
it: just its `result` member, possibly absent. -/
structure StateItem where
  result : Option Bill
deriving DecidableEq, Repr

/-- Serialize the raw `status` value inside `json.dumps(bill)`. -/
def dumpsStatus (v : Option StatusVal) : List String :=
  match v with
  | none => []
  | some (StatusVal.dict d a) =>
    ["\"status\": " ++ dumpsObj (dumpsField "statusDesc" d ++ dumpsField "actionDate" a)]
  | some (StatusVal.nonDict raw) => ["\"status\": \"" ++ raw ++ "\""]

/-- `json.dumps(bill)` over the modelled bill keys. -/
def dumpsBill (bill : Bill) : String :=
  dumpsObj (dumpsField "basePrintNo" bill.basePrintNo ++
    dumpsField "session" bill.session ++
    dumpsField "title" bill.title ++
    dumpsField "summary" bill.summary ++
    dumpsStatus bill.status)

/-- Python `str.strip()`: drop leading and trailing whitespace. -/
def pyStrip (s : String) : String :=
  String.mk (List.reverse (List.dropWhile Char.isWhitespace
    (List.reverse (List.dropWhile Char.isWhitespace s.data))))

/-- `normalize_state(items)` (lines 144-165): composite id
`"nys-<session>-<basePrintNo>"`, title `f"\x7bprint_no\x7d: \x7btitle\x7d".strip()`,
`action_date` only from a dict-valued `status`. -/
def normalize_state (items : List StateItem) : List Dict :=
  List.map (fun item =>
    let bill := item.result.getD Bill.empty
    let print_no := bill.basePrintNo.getD ""
    let session := bill.session.getD ""
    let title := bill.title.getD ""
    let summary := bill.summary.getD ""
    let action_date := match bill.status with
      | some (StatusVal.dict _ a) => a.getD ""
      | some (StatusVal.nonDict _) => ""
      | none => ""
    let doc_id := "nys-" ++ session ++ "-" ++ print_no
    [("id", doc_id),
     ("title", pyStrip (print_no ++ ": " ++ title)),
     ("description", summary),
     ("published_date", pyOr action_date ""),
     ("full_text", dumpsBill bill),
     ("source_last_modified", pyOr action_date "")]) items

/-! ## The spec's upsert decision -/

/-- The spec's skip condition, stated in the spec's own words (§4.2,
step 3): a stored row for the id exists AND its stored
`source_last_modified` is non-empty AND the incoming marker is
non-empty AND stored ≥ incoming under string comparison. -/
def specSkips (db : DB) (doc_id incoming : String) : Prop :=
  ∃ row, DB.lookup db doc_id = some row ∧ row.source_last_modified ≠ "" ∧
    incoming ≠ "" ∧ row.source_last_modified ≥ incoming

/-- A concrete well-formed NYS bill used in examples and witnesses. -/
def sampleBill : Bill :=
  { basePrintNo := some "S100"
    session := some "2025"
    title := some "An act"
    summary := some "s"
    status := some (StatusVal.dict (some "In Committee") (some "2025-03-01")) }

example : normalize_state [{ result := some sampleBill }] =
    [[("id", "nys-2025-S100"), ("title", "S100: An act"), ("description", "s"),
      ("published_date", "2025-03-01"),
      ("full_text", dumpsBill sampleBill),
      ("source_last_modified", "2025-03-01")]] := by decide

/-! ## Concrete records and items used in examples, witnesses and counterexamples -/

/-- The spec's §8 concrete federal attributes, reused in witnesses. -/
def sampleAttrs : FedAttrs :=
  { documentId := some "FED-001-0001"
    title := some "Rule X"
    summary := some "S"
    abstract := none
    postedDate := some "2026-01-20"
    lastModifiedDate := none }

/-- The spec's §8 concrete federal item. -/
def sampleFedItem : FedItem :=
  { id := some "FED-001", attributes := some sampleAttrs }

/-- A second NYS bill with the same session and basePrintNo as
`sampleBill` but different remaining fields. -/
def sampleBill2 : Bill :=
  { basePrintNo := some "S100"
    session := some "2025"
    title := some "An act (amended)"
    summary := some "s2"
    status := some (StatusVal.dict (some "Passed") (some "2025-06-01")) }

/-- Federal attributes carrying a present-but-empty `summary` next to a
non-empty `abstract` (and likewise an empty `documentId`). -/
def fallbackAttrs : FedAttrs :=
  { documentId := some ""
    title := none
    summary := some ""
    abstract := some "A"
    postedDate := some "2026-01-01"
    lastModifiedDate := some "" }

/-- A federal item with `fallbackAttrs` and a top-level id. -/
def fallbackItem : FedItem :=
  { id := some "I", attributes := some fallbackAttrs }

/-- A record whose `source_last_modified` is present but empty. -/
def emptyMarkerRec : Dict :=
  [("id", "doc-1"), ("title", "Test"), ("source_last_modified", "")]

/-- A record with a non-empty `source_last_modified`, for the C2
witness. -/
def freshMarkerRec : Dict :=
  [("id", "doc-1"), ("title", "Test"), ("source_last_modified", "2026-01-01")]

/-- First version of a record, for the C3 witness. -/
def olderRec : Dict :=
  [("id", "doc-9"), ("title", "v1"), ("source_last_modified", "2026-01-01")]

/-- A strictly fresher second version of the same record. -/
def newerRec : Dict :=
  [("id", "doc-9"), ("title", "v2"), ("source_last_modified", "2026-01-02")]

/-! ## Claim C1: the skip/write decision of store_records -/

/-- **C1**: for every record processed by `store_records` that has a
non-empty id, the record is skipped — the table is left unchanged — iff
a stored row for that id exists with a non-empty stored
`source_last_modified`, the incoming marker is non-empty, and stored ≥
incoming under string comparison; in every other case the record is
written via insert-or-replace of the full row built from the incoming
record (inserted if no row exists, fully overwritten if one exists). -/
theorem store_records_skip_iff (level source_url now doc_id : String)
    (rec : Dict) (db : DB)
    (hid : Dict.get rec "id" = some doc_id) (hne : doc_id ≠ "") :
    (specSkips db doc_id ((Dict.get rec "source_last_modified").getD "") →
        storeOne level source_url now db rec = db) ∧
    (¬ specSkips db doc_id ((Dict.get rec "source_last_modified").getD "") →
        storeOne level source_url now db rec =
          insertOrReplace db (rowOfRec level source_url now doc_id rec)) := by
  constructor
  · rintro ⟨row, hrow, h1, h2, h3⟩
    simp [storeOne, hid, hne, hrow, h1, h2, h3]
  · intro h
    cases hdb : DB.lookup db doc_id with
    | none => simp [storeOne, hid, hne, hdb]
    | some existing =>
      have hc : ¬ (existing.source_last_modified ≠ "" ∧
          (Dict.get rec "source_last_modified").getD "" ≠ "" ∧
          existing.source_last_modified ≥
            (Dict.get rec "source_last_modified").getD "") :=
        fun hcond => h ⟨existing, hdb, hcond⟩
      simp only [storeOne, hid, hdb]
      rw [if_neg hne, if_neg hc]

/-- Witness for `store_records_skip_iff` at a concrete input: storing a
fresh record into the empty table writes it. -/
theorem store_records_skip_iff_witness :
    storeOne "federal" "u" "t" [] [("id", "a"), ("source_last_modified", "2")] =
      insertOrReplace []
        (rowOfRec "federal" "u" "t" "a" [("id", "a"), ("source_last_modified", "2")]) :=
  (store_records_skip_iff "federal" "u" "t" "a"
      [("id", "a"), ("source_last_modified", "2")] [] (by decide) (by decide)).2
    (by rintro ⟨row, hrow, -⟩; simp [DB.lookup] at hrow)

/-! ## Claims C4 and C9: records without a usable id are dropped -/

/-- **C4**: a record lacking an `id` key produces no stored row and the
rest of the batch is processed exactly as if the record were absent, so
the stored state for all other ids is unchanged by it. (`store_records`
is a total function, so no error is raised.) -/
theorem store_records_missing_id (level source_url now : String) (rec : Dict)
    (pre post : List Dict) (db : DB) (h : Dict.get rec "id" = none) :
    store_records level (pre ++ rec :: post) source_url now db =
      store_records level (pre ++ post) source_url now db := by
  unfold store_records
  rw [List.foldl_append, List.foldl_append, List.foldl_cons]
  congr 1
  simp [storeOne, h]

/-- Witness for `store_records_missing_id`: a batch of a stored record
and an id-less record equals the batch without the id-less record. -/
theorem store_records_missing_id_witness :
    store_records "federal" [[("id", "b")], [("title", "x")]] "u" "t" [] =
      store_records "federal" [[("id", "b")]] "u" "t" [] :=
  store_records_missing_id "federal" "u" "t" [("title", "x")]
    [[("id", "b")]] [] [] (by decide)

/-- **C9**: a record whose `id` key is present but bound to the empty
string is treated exactly like a record lacking an id: no stored row,
no error, and the batch continues unchanged around it. -/
theorem store_records_empty_id (level source_url now : String) (rec : Dict)
    (pre post : List Dict) (db : DB) (h : Dict.get rec "id" = some "") :
    store_records level (pre ++ rec :: post) source_url now db =
      store_records level (pre ++ post) source_url now db := by
  unfold store_records
  rw [List.foldl_append, List.foldl_append, List.foldl_cons]
  congr 1
  simp [storeOne, h]

/-- Witness for `store_records_empty_id`. -/
theorem store_records_empty_id_witness :
    store_records "federal" [[("id", "b")], [("id", ""), ("title", "x")]] "u" "t" [] =
      store_records "federal" [[("id", "b")]] "u" "t" [] :=
  store_records_empty_id "federal" "u" "t" [("id", ""), ("title", "x")]
    [[("id", "b")]] [] [] (by decide)

/-! ## Claim C10: one timestamp per store_records call -/

/-- Every row of `insertOrReplace db row` is a row of `db` or is `row`. -/
theorem mem_insertOrReplace {db : DB} {row r : Row}
    (h : r ∈ insertOrReplace db row) : r ∈ db ∨ r = row := by
  unfold insertOrReplace at h
  split at h
  · rcases List.mem_map.mp h with ⟨x, hx, hfx⟩
    by_cases hid : x.id = row.id
    · right
      rw [if_pos hid] at hfx
      exact hfx.symm
    · left
      rw [if_neg hid] at hfx
      exact hfx ▸ hx
  · rcases List.mem_append.mp h with h' | h'
    · exact Or.inl h'
    · right
      simpa using h'

/-- Every row of `storeOne ... db rec` is a row of `db` or carries the
call's timestamp. -/
theorem mem_storeOne {level source_url now : String} {db : DB} {rec : Dict}
    {r : Row} (h : r ∈ storeOne level source_url now db rec) :
    r ∈ db ∨ r.last_updated = now := by
  unfold storeOne at h
  split at h
  · exact Or.inl h
  · split at h
    · exact Or.inl h
    · split at h
      · simp only [ne_eq] at h
        split at h
        · exact Or.inl h
        · rcases mem_insertOrReplace h with h' | h'
          · exact Or.inl h'
          · right
            rw [h']
            rfl
      · rcases mem_insertOrReplace h with h' | h'
        · exact Or.inl h'
        · right
          rw [h']
          rfl

/-- Every row of `store_records` output is a pre-existing row of `db`
or carries the call's single timestamp `now`. -/
theorem mem_store_records {level source_url now : String} {recs : List Dict}
    {db : DB} {r : Row}
    (h : r ∈ store_records level recs source_url now db) :
    r ∈ db ∨ r.last_updated = now := by
  induction recs generalizing db with
  | nil => exact Or.inl h
  | cons rec rest ih =>
    rw [store_records, List.foldl_cons] at h
    rcases ih h with h' | h'
    · rcases mem_storeOne h' with h'' | h''
      · exact Or.inl h''
      · exact Or.inr h''
    · exact Or.inr h'

/-- **C10**: the timestamp is captured once per `store_records` call
(line 58), so every row the call writes — i.e. every row of the result
that was not already stored — carries that one timestamp, and two rows
written by the same call never differ in `last_updated`. -/
theorem store_records_one_timestamp (level source_url now : String)
    (recs : List Dict) (db : DB) :
    (∀ r ∈ store_records level recs source_url now db,
        r ∈ db ∨ r.last_updated = now) ∧
    (∀ r1 ∈ store_records level recs source_url now db,
     ∀ r2 ∈ store_records level recs source_url now db,
        r1 ∉ db → r2 ∉ db → r1.last_updated = r2.last_updated) := by
  refine ⟨fun r hr => mem_store_records hr, fun r1 h1 r2 h2 hn1 hn2 => ?_⟩
  rcases mem_store_records h1 with h | h
  · exact absurd h hn1
  · rcases mem_store_records h2 with h' | h'
    · exact absurd h' hn2
    · rw [h, h']

/-- Witness for `store_records_one_timestamp`: two records written by
one call get equal `last_updated`. -/
theorem store_records_one_timestamp_witness :
    (rowOfRec "f" "u" "t" "a" [("id", "a")]).last_updated =
      (rowOfRec "f" "u" "t" "b" [("id", "b")]).last_updated :=
  (store_records_one_timestamp "f" "u" "t" [[("id", "a")], [("id", "b")]] []).2
    (rowOfRec "f" "u" "t" "a" [("id", "a")]) (by decide)
    (rowOfRec "f" "u" "t" "b" [("id", "b")]) (by decide) (by decide) (by decide)

/-! ## Claim C5: normalizer totality -/

/-- **C5**: each normalizer maps the empty input sequence to the empty
output sequence, and maps any single mapping item to exactly one
canonical record whose key set is exactly the six canonical keys, in
order, with string (possibly empty) values and no extra or missing
keys. -/
theorem normalizer_totality (fitem : FedItem) (sitem : StateItem) :
    normalize_federal [] = [] ∧ normalize_state [] = [] ∧
    (normalize_federal [fitem]).length = 1 ∧
    (normalize_state [sitem]).length = 1 ∧
    (∀ d ∈ normalize_federal [fitem], Dict.keys d = canonicalKeys) ∧
    (∀ d ∈ normalize_state [sitem], Dict.keys d = canonicalKeys) := by
  refine ⟨rfl, rfl, rfl, rfl, ?_, ?_⟩
  · intro d hd
    simp only [normalize_federal, List.map_cons, List.map_nil,
      List.mem_singleton] at hd
    subst hd
    rfl
  · intro d hd
    simp only [normalize_state, List.map_cons, List.map_nil,
      List.mem_singleton] at hd
    subst hd
    rfl

/-- Witness for `normalizer_totality`: the spec's §8 federal item
normalizes to a record with exactly the canonical keys. -/
theorem normalizer_totality_witness :
    Dict.keys (List.headD (normalize_federal [sampleFedItem]) []) = canonicalKeys :=
  (normalizer_totality sampleFedItem { result := some sampleBill }).2.2.2.2.1
    (List.headD (normalize_federal [sampleFedItem]) []) (by decide)

/-! ## Claim C7: composite id construction for state bills -/

/-- **C7**: `normalize_state` builds each id as the namespace prefix
`"nys"`, the bill's session and its basePrintNo joined by `"-"`, so two
items whose result mappings agree on session and basePrintNo normalize
to the same id. -/
theorem normalize_state_composite_id (i1 i2 : StateItem) (b1 b2 : Bill)
    (h1 : i1.result = some b1) (h2 : i2.result = some b2)
    (hs : b1.session = b2.session) (hp : b1.basePrintNo = b2.basePrintNo) :
    ∃ d1 d2, normalize_state [i1] = [d1] ∧ normalize_state [i2] = [d2] ∧
      Dict.get d1 "id" =
        some ("nys-" ++ b1.session.getD "" ++ "-" ++ b1.basePrintNo.getD "") ∧
      Dict.get d1 "id" = Dict.get d2 "id" := by
  refine ⟨_, _, rfl, rfl, ?_, ?_⟩
  · simp [normalize_state, h1, Dict.get]
  · simp [normalize_state, h1, h2, hs, hp, Dict.get]

/-- Witness for `normalize_state_composite_id` on two concrete bills
sharing session `2025` and basePrintNo `S100`. -/
theorem normalize_state_composite_id_witness :
    ∃ d1 d2, normalize_state [{ result := some sampleBill }] = [d1] ∧
      normalize_state [{ result := some sampleBill2 }] = [d2] ∧
      Dict.get d1 "id" = some ("nys-" ++ "2025" ++ "-" ++ "S100") ∧
      Dict.get d1 "id" = Dict.get d2 "id" :=
  normalize_state_composite_id { result := some sampleBill }
    { result := some sampleBill2 } sampleBill sampleBill2 rfl rfl rfl rfl

/-! ## Claim C8: no raise, no null, absent fields become "" -/

/-- **C8**: both normalizers are total functions of their input item
(so they never raise), every canonical key of the output is bound to an
actual string — never `none`/null — and a raw field that is absent
contributes the empty string to the field it feeds. -/
theorem normalize_absent_fields (fitem : FedItem) (sitem : StateItem) :
    (∀ d ∈ normalize_federal [fitem],
      ∀ k ∈ canonicalKeys, (Dict.get d k).isSome = true) ∧
    (∀ d ∈ normalize_state [sitem],
      ∀ k ∈ canonicalKeys, (Dict.get d k).isSome = true) ∧
    (∀ d ∈ normalize_federal [fitem],
      ((fitem.attributes.getD FedAttrs.empty).title = none →
          Dict.get d "title" = some "") ∧
      ((fitem.attributes.getD FedAttrs.empty).postedDate = none →
          Dict.get d "published_date" = some "") ∧
      ((fitem.attributes.getD FedAttrs.empty).summary = none →
        (fitem.attributes.getD FedAttrs.empty).abstract = none →
          Dict.get d "description" = some "") ∧
      ((fitem.attributes.getD FedAttrs.empty).documentId = none →
        fitem.id = none → Dict.get d "id" = some "") ∧
      ((fitem.attributes.getD FedAttrs.empty).lastModifiedDate = none →
        (fitem.attributes.getD FedAttrs.empty).postedDate = none →
          Dict.get d "source_last_modified" = some "")) ∧
    (∀ d ∈ normalize_state [sitem],
      ((sitem.result.getD Bill.empty).summary = none →
          Dict.get d "description" = some "") ∧
      ((sitem.result.getD Bill.empty).status = none →
          Dict.get d "published_date" = some "" ∧
          Dict.get d "source_last_modified" = some "")) := by
  refine ⟨?_, ?_, ?_, ?_⟩
  · intro d hd k hk
    simp only [normalize_federal, List.map_cons, List.map_nil,
      List.mem_singleton] at hd
    subst hd
    simp only [canonicalKeys, List.mem_cons, List.not_mem_nil, or_false] at hk
    rcases hk with rfl | rfl | rfl | rfl | rfl | rfl <;> simp [Dict.get]
  · intro d hd k hk
    simp only [normalize_state, List.map_cons, List.map_nil,
      List.mem_singleton] at hd
    subst hd
    simp only [canonicalKeys, List.mem_cons, List.not_mem_nil, or_false] at hk
    rcases hk with rfl | rfl | rfl | rfl | rfl | rfl <;> simp [Dict.get]
  · intro d hd
    simp only [normalize_federal, List.map_cons, List.map_nil,
      List.mem_singleton] at hd
    subst hd
    refine ⟨fun h => ?_, fun h => ?_, fun h h' => ?_, fun h h' => ?_, fun h h' => ?_⟩ <;>
      simp [Dict.get, pyOr, h]
    · simp [h']
    · simp [h, h']
    · simp [h']
  · intro d hd
    simp only [normalize_state, List.map_cons, List.map_nil,
      List.mem_singleton] at hd
    subst hd
    refine ⟨fun h => ?_, fun h => ?_⟩ <;> simp [Dict.get, pyOr, h]

/-- Witness for `normalize_absent_fields`: an item with every optional
field absent normalizes with `""` in every directly-extracted field. -/
theorem normalize_absent_fields_witness :
    ∃ d, normalize_federal [{ id := none, attributes := some FedAttrs.empty }] = [d] ∧
      Dict.get d "title" = some "" ∧ Dict.get d "description" = some "" ∧
      Dict.get d "id" = some "" := by
  refine ⟨_, rfl, ?_, ?_, ?_⟩
  · exact ((normalize_absent_fields { id := none, attributes := some FedAttrs.empty }
      { result := none }).2.2.1 _ (by decide)).1 rfl
  · exact (((normalize_absent_fields { id := none, attributes := some FedAttrs.empty }
      { result := none }).2.2.1 _ (by decide)).2.2.1) rfl rfl
  · exact (((normalize_absent_fields { id := none, attributes := some FedAttrs.empty }
      { result := none }).2.2.1 _ (by decide)).2.2.2.1) rfl rfl

/-! ## Claim C6: federal field-extraction priority order -/

/-- **C6 counterexample**: the claim says fallback happens only when
the preferred field is *absent*; but on an item whose `summary` is
present and empty (`some ""`) with `abstract = "A"`, the code's Python
`or` falls back anyway: the output description is `"A"`, not the
present summary value `""` (and likewise for `documentId`/`id` and
`lastModifiedDate`/`source_last_modified`). -/
theorem normalize_federal_fallback_counterexample :
    fallbackAttrs.summary = some "" ∧
    Dict.get (List.headD (normalize_federal [fallbackItem]) [])
        "description" = some "A" ∧
    ¬ Dict.get (List.headD (normalize_federal [fallbackItem]) [])
        "description" = some "" ∧
    fallbackAttrs.documentId = some "" ∧
    Dict.get (List.headD (normalize_federal [fallbackItem]) []) "id" =
        some "I" ∧
    ¬ Dict.get (List.headD (normalize_federal [fallbackItem]) []) "id" =
        some "" := by decide

/-- **C6 amended**: field extraction follows the fixed priority order
with fallback when the preferred field is absent *or empty* (Python
falsy `or`): the output id is the attributes' documentId unless that is
absent or empty, in which case it is the item's top-level id;
description is summary unless absent or empty, falling back to
abstract; source_last_modified is lastModifiedDate unless absent or
empty, falling back to postedDate. -/
theorem normalize_federal_fallback (item : FedItem) (attrs : FedAttrs)
    (hattrs : item.attributes = some attrs) :
    ∃ d, normalize_federal [item] = [d] ∧
      ((attrs.documentId = none ∨ attrs.documentId = some "") →
        Dict.get d "id" = some (item.id.getD "")) ∧
      (∀ v, attrs.documentId = some v → v ≠ "" → Dict.get d "id" = some v) ∧
      ((attrs.summary = none ∨ attrs.summary = some "") →
        Dict.get d "description" = some (attrs.abstract.getD "")) ∧
      (∀ v, attrs.summary = some v → v ≠ "" →
        Dict.get d "description" = some v) ∧
      ((attrs.lastModifiedDate = none ∨ attrs.lastModifiedDate = some "") →
        Dict.get d "source_last_modified" = some (attrs.postedDate.getD "")) ∧
      (∀ v, attrs.lastModifiedDate = some v → v ≠ "" →
        Dict.get d "source_last_modified" = some v) := by
  refine ⟨_, rfl, ?_, ?_, ?_, ?_, ?_, ?_⟩
  · rintro (h | h) <;> simp [Dict.get, hattrs, h, pyOr]
  · intro v hv hne
    simp [Dict.get, hattrs, hv, pyOr, hne]
  · rintro (h | h) <;> simp [Dict.get, hattrs, h, pyOr]
  · intro v hv hne
    simp [Dict.get, hattrs, hv, pyOr, hne]
  · rintro (h | h) <;> simp [Dict.get, hattrs, h, pyOr]
  · intro v hv hne
    simp [Dict.get, hattrs, hv, pyOr, hne]

/-- Witness for `normalize_federal_fallback` at `fallbackItem`. -/
theorem normalize_federal_fallback_witness :
    ∃ d, normalize_federal [fallbackItem] = [d] ∧
      Dict.get d "description" = some "A" ∧ Dict.get d "id" = some "I" := by
  obtain ⟨d, hd, hid, -, hdesc, -, -, -⟩ :=
    normalize_federal_fallback fallbackItem fallbackAttrs rfl
  exact ⟨d, hd, hdesc (Or.inr rfl), hid (Or.inr rfl)⟩

/-! ## Claim C2: idempotence of re-storing an identical record -/

/-- Replacing the row with the given id finds exactly the new row on
lookup, provided some stored row carries that id. -/
theorem lookup_map_replace (db : DB) (row : Row)
    (h : ∃ r ∈ db, r.id = row.id) :
    DB.lookup (List.map (fun r => if r.id = row.id then row else r) db)
      row.id = some row := by
  induction db with
  | nil => simp at h
  | cons a t ih =>
    by_cases ha : a.id = row.id
    · simp [DB.lookup, List.map_cons, List.find?_cons, ha]
    · have ht : ∃ r ∈ t, r.id = row.id := by
        rcases h with ⟨r, hr, hid⟩
        rcases List.mem_cons.mp hr with rfl | hr'
        · exact absurd hid ha
        · exact ⟨r, hr', hid⟩
      simpa [DB.lookup, List.map_cons, List.find?_cons, ha] using ih ht

/-- After an insert-or-replace, looking up the new row's id finds
exactly that row. -/
theorem lookup_insertOrReplace_self (db : DB) (row : Row) :
    DB.lookup (insertOrReplace db row) row.id = some row := by
  unfold insertOrReplace
  split
  · rename_i hany
    rcases List.any_eq_true.mp hany with ⟨r0, hr0, hid0⟩
    exact lookup_map_replace db row ⟨r0, hr0, of_decide_eq_true hid0⟩
  · rename_i hany
    have h1 : List.find? (fun r => r.id = row.id) db = none := by
      rw [List.find?_eq_none]
      intro r hr hid
      exact hany (List.any_eq_true.mpr ⟨r, hr, hid⟩)
    rw [DB.lookup, List.find?_append]
    simp [h1, List.find?_cons]

/-- If no stored row has the id, the count for that id is zero. -/
theorem countId_eq_zero_of_lookup_none {db : DB} {doc_id : String}
    (h : DB.lookup db doc_id = none) : DB.countId db doc_id = 0 := by
  rw [DB.countId, List.countP_eq_zero]
  exact List.find?_eq_none.mp h

/-- In a table with distinct ids, an id that is present is stored in
exactly one row. -/
theorem countId_eq_one_of_WF (db : DB) (doc_id : String) (row : Row) :
    DB.WF db → DB.lookup db doc_id = some row → DB.countId db doc_id = 1 := by
  induction db with
  | nil =>
    intro _ h
    cases h
  | cons a t ih =>
    intro hwf h
    rw [DB.WF, List.map_cons, List.nodup_cons] at hwf
    by_cases ha : a.id = doc_id
    · have hzero : List.countP (fun r => decide (r.id = doc_id)) t = 0 := by
        rw [List.countP_eq_zero]
        intro r hr hid
        have hmem : r.id ∈ List.map Row.id t := List.mem_map_of_mem Row.id hr
        rw [of_decide_eq_true hid, ← ha] at hmem
        exact hwf.1 hmem
      simp [DB.countId, List.countP_cons, ha, hzero]
    · have ht : DB.lookup t doc_id = some row := by
        simpa [DB.lookup, List.find?_cons, ha] using h
      simpa [DB.countId, List.countP_cons, ha] using ih hwf.2 ht

/-- Insert-or-replace into a table with distinct ids leaves exactly one
row with the new row's id. -/
theorem countId_insertOrReplace (db : DB) (row : Row) (hwf : DB.WF db) :
    DB.countId (insertOrReplace db row) row.id = 1 := by
  unfold insertOrReplace
  split
  · rename_i hany
    rcases List.any_eq_true.mp hany with ⟨r0, hr0, hid0⟩
    have hmap : DB.countId
        (List.map (fun r => if r.id = row.id then row else r) db) row.id =
        DB.countId db row.id := by
      rw [DB.countId, DB.countId, List.countP_map]
      apply List.countP_congr
      intro r _
      by_cases hr : r.id = row.id <;> simp [hr]
    rw [hmap]
    cases hl : DB.lookup db row.id with
    | none => exact absurd hid0 (List.find?_eq_none.mp hl r0 hr0)
    | some r1 => exact countId_eq_one_of_WF db row.id r1 hwf hl
  · rename_i hany
    have hl : DB.lookup db row.id = none := by
      rw [DB.lookup, List.find?_eq_none]
      intro r hr hid
      exact hany (List.any_eq_true.mpr ⟨r, hr, hid⟩)
    have h0 : DB.countId db row.id = 0 := countId_eq_zero_of_lookup_none hl
    rw [DB.countId, List.countP_append, ← DB.countId, h0]
    simp [List.countP_cons]

/-- **C2 counterexample**: calling `store_records` twice with the very
same single record is not always a no-op on the stored row: when the
record's `source_last_modified` is empty, the second call overwrites
the row, so its `last_updated` becomes the second call's timestamp. -/
theorem store_records_idempotent_counterexample :
    DB.lookup
        (store_records "federal" [emptyMarkerRec] "u" "2026-01-02T00:00:00"
          (store_records "federal" [emptyMarkerRec] "u" "2026-01-01T00:00:00" []))
        "doc-1" ≠
      DB.lookup
        (store_records "federal" [emptyMarkerRec] "u" "2026-01-01T00:00:00" [])
        "doc-1" := by decide

/-- **C2 amended**: provided the record's `source_last_modified` is
non-empty (and its id is non-empty, and stored ids are distinct as the
primary key guarantees), calling `store_records` twice with the same
single record leaves exactly one stored row for that id, and the second
call — at any later timestamp — changes nothing at all, `last_updated`
included. -/
theorem store_records_idempotent (level source_url now1 now2 doc_id : String)
    (rec : Dict) (db : DB) (hwf : DB.WF db)
    (hid : Dict.get rec "id" = some doc_id) (hne : doc_id ≠ "")
    (hs : (Dict.get rec "source_last_modified").getD "" ≠ "") :
    DB.countId (store_records level [rec] source_url now1 db) doc_id = 1 ∧
    store_records level [rec] source_url now2
        (store_records level [rec] source_url now1 db) =
      store_records level [rec] source_url now1 db := by
  have hstep : ∀ (n : String) (d : DB),
      store_records level [rec] source_url n d = storeOne level source_url n d rec :=
    fun _ _ => rfl
  cases hdb : DB.lookup db doc_id with
  | none =>
    have e1 : storeOne level source_url now1 db rec =
        insertOrReplace db (rowOfRec level source_url now1 doc_id rec) := by
      simp [storeOne, hid, hne, hdb]
    have hl1 : DB.lookup
        (insertOrReplace db (rowOfRec level source_url now1 doc_id rec)) doc_id =
        some (rowOfRec level source_url now1 doc_id rec) := by
      simpa [rowOfRec] using
        lookup_insertOrReplace_self db (rowOfRec level source_url now1 doc_id rec)
    have hpr : (rowOfRec level source_url now1 doc_id rec).source_last_modified =
        (Dict.get rec "source_last_modified").getD "" := rfl
    have e2 : storeOne level source_url now2
        (insertOrReplace db (rowOfRec level source_url now1 doc_id rec)) rec =
        insertOrReplace db (rowOfRec level source_url now1 doc_id rec) := by
      simp [storeOne, hid, hne, hl1, hpr, hs]
    refine ⟨?_, ?_⟩
    · rw [hstep, e1]
      exact countId_insertOrReplace db (rowOfRec level source_url now1 doc_id rec) hwf
    · rw [hstep, hstep, e1, e2]
  | some existing =>
    by_cases hc : existing.source_last_modified ≠ "" ∧
        (Dict.get rec "source_last_modified").getD "" ≠ "" ∧
        existing.source_last_modified ≥ (Dict.get rec "source_last_modified").getD ""
    · obtain ⟨hc1, hc2, hc3⟩ := hc
      have e1 : ∀ n : String, storeOne level source_url n db rec = db := by
        intro n
        simp [storeOne, hid, hne, hdb, hc1, hc2, hc3]
      refine ⟨?_, ?_⟩
      · rw [hstep, e1]
        exact countId_eq_one_of_WF db doc_id existing hwf hdb
      · rw [hstep, hstep, e1, e1]
    · have e1 : storeOne level source_url now1 db rec =
          insertOrReplace db (rowOfRec level source_url now1 doc_id rec) := by
        simp only [storeOne, hid, hdb]
        rw [if_neg hne, if_neg hc]
      have hl1 : DB.lookup
          (insertOrReplace db (rowOfRec level source_url now1 doc_id rec)) doc_id =
          some (rowOfRec level source_url now1 doc_id rec) := by
        simpa [rowOfRec] using
          lookup_insertOrReplace_self db (rowOfRec level source_url now1 doc_id rec)
      have hpr : (rowOfRec level source_url now1 doc_id rec).source_last_modified =
          (Dict.get rec "source_last_modified").getD "" := rfl
      have e2 : storeOne level source_url now2
          (insertOrReplace db (rowOfRec level source_url now1 doc_id rec)) rec =
          insertOrReplace db (rowOfRec level source_url now1 doc_id rec) := by
        simp [storeOne, hid, hne, hl1, hpr, hs]
      refine ⟨?_, ?_⟩
      · rw [hstep, e1]
        exact countId_insertOrReplace db (rowOfRec level source_url now1 doc_id rec) hwf
      · rw [hstep, hstep, e1, e2]

/-- Witness for `store_records_idempotent` at a concrete record and the
empty table. -/
theorem store_records_idempotent_witness :
    DB.countId (store_records "federal" [freshMarkerRec] "u" "t1" []) "doc-1" = 1 ∧
    store_records "federal" [freshMarkerRec] "u" "t2"
        (store_records "federal" [freshMarkerRec] "u" "t1" []) =
      store_records "federal" [freshMarkerRec] "u" "t1" [] :=
  store_records_idempotent "federal" "u" "t1" "t2" "doc-1" freshMarkerRec []
    (by simp [DB.WF]) (by decide) (by decide) (by decide)

/-! ## Claim C3: monotonic freshness -/

/-- **C3**: two successive `store_records` calls for the same id —
starting from a table with no row for that id — where both markers are
non-empty and the second strictly greater under string comparison,
leave a stored row built entirely from the second call's record, with
`last_updated` equal to the second call's timestamp. -/
theorem store_records_monotonic
    (level1 level2 url1 url2 now1 now2 doc_id s1 s2 : String)
    (r1 r2 : Dict) (db : DB)
    (h0 : DB.lookup db doc_id = none)
    (hid1 : Dict.get r1 "id" = some doc_id) (hne : doc_id ≠ "")
    (hid2 : Dict.get r2 "id" = some doc_id)
    (hs1 : (Dict.get r1 "source_last_modified").getD "" = s1)
    (hs2 : (Dict.get r2 "source_last_modified").getD "" = s2)
    (hs1ne : s1 ≠ "") (hs2ne : s2 ≠ "") (hlt : s1 < s2) :
    DB.lookup (store_records level2 [r2] url2 now2
        (store_records level1 [r1] url1 now1 db)) doc_id =
      some (rowOfRec level2 url2 now2 doc_id r2) := by
  have e1 : store_records level1 [r1] url1 now1 db =
      insertOrReplace db (rowOfRec level1 url1 now1 doc_id r1) := by
    simp [store_records, storeOne, hid1, hne, h0]
  have hl1 : DB.lookup
      (insertOrReplace db (rowOfRec level1 url1 now1 doc_id r1)) doc_id =
      some (rowOfRec level1 url1 now1 doc_id r1) := by
    simpa [rowOfRec] using
      lookup_insertOrReplace_self db (rowOfRec level1 url1 now1 doc_id r1)
  have hpr : (rowOfRec level1 url1 now1 doc_id r1).source_last_modified = s1 := by
    rw [← hs1]
    rfl
  have hnge : ¬ ((rowOfRec level1 url1 now1 doc_id r1).source_last_modified ≥
      (Dict.get r2 "source_last_modified").getD "") := by
    rw [hpr, hs2]
    exact not_le.mpr hlt
  have e2 : store_records level2 [r2] url2 now2
      (insertOrReplace db (rowOfRec level1 url1 now1 doc_id r1)) =
      insertOrReplace (insertOrReplace db (rowOfRec level1 url1 now1 doc_id r1))
        (rowOfRec level2 url2 now2 doc_id r2) := by
    simp [store_records, storeOne, hid2, hne, hl1, hnge]
  rw [e1, e2]
  simpa [rowOfRec] using lookup_insertOrReplace_self
    (insertOrReplace db (rowOfRec level1 url1 now1 doc_id r1))
    (rowOfRec level2 url2 now2 doc_id r2)

/-- Witness for `store_records_monotonic`: storing `olderRec` then
`newerRec` leaves exactly the row built from `newerRec`. -/
theorem store_records_monotonic_witness :
    DB.lookup (store_records "federal" [newerRec] "u2" "t2"
        (store_records "federal" [olderRec] "u1" "t1" [])) "doc-9" =
      some (rowOfRec "federal" "u2" "t2" "doc-9" newerRec) :=
  store_records_monotonic "federal" "federal" "u1" "u2" "t1" "t2" "doc-9"
    "2026-01-01" "2026-01-02" olderRec newerRec [] (by decide) (by decide)
    (by decide) (by decide) (by decide) (by decide) (by decide) (by decide)
    (by rw [String.lt_iff_toList_lt]; decide)
